import Mathlib

/-!
Shallow embedding of the prank relay server (`server.js`, multi-client variant).

Connections are identified by opaque numeric handles.  The server keeps a
JS `Map` from room codes to rooms (modelled as an insertion-ordered
association list, keys unique by construction of `mapSet`), and each live
connection carries a `clientInfo` record (`null` until a join succeeds),
modelled here as an association list from handles to `ClientInfo`.

Sends that the source wraps in `try/catch` (the prank fan-out and the
disconnect notification loops) are parametrised by a list `failing` of
handles whose `send` throws; all other sends are modelled as succeeding.
A thrown exception inside a message handler is caught by the outer
`ws.on('message')` try/catch, which discards the message; `handlePrankMessage`
returns `none` in that case (reading `message.payload.type` of a missing
payload throws before any send is attempted).
-/

namespace PrankRelay

abbrev Handle := Nat

/-- The relayed payload is opaque to the server; it only forwards it. -/
abbrev Payload := String

def PRANK_ROOM_CODE : String := "PRANK_ROOM_XYZ123_SECRET"

/-- `{ sender: null, clients: [] }` room records. -/
structure Room where
  sender : Option Handle
  clients : List Handle
deriving Repr, DecidableEq

def emptyRoom : Room := { sender := none, clients := [] }

inductive SessionType where
  | sender
  | client
deriving Repr, DecidableEq

/-- The per-connection `clientInfo` record (absent = `null`). -/
structure ClientInfo where
  role : SessionType
  roomCode : String
deriving Repr, DecidableEq

/-- `Map.prototype.get`: first (unique) binding of the key. -/
def mapGet {κ β : Type} [DecidableEq κ] (k : κ) : List (κ × β) → Option β
  | [] => none
  | (k', v) :: rest => if k' = k then some v else mapGet k rest

/-- `Map.prototype.has`. -/
def mapHas {κ β : Type} [DecidableEq κ] (k : κ) (m : List (κ × β)) : Bool :=
  (mapGet k m).isSome

/-- `Map.prototype.set`: replace the binding in place, else append. -/
def mapSet {κ β : Type} [DecidableEq κ] (k : κ) (v : β) : List (κ × β) → List (κ × β)
  | [] => [(k, v)]
  | (k', v') :: rest => if k' = k then (k, v) :: rest else (k', v') :: mapSet k v rest

/-- `Map.prototype.delete`. -/
def mapDel {κ β : Type} [DecidableEq κ] (k : κ) : List (κ × β) → List (κ × β)
  | [] => []
  | (k', v') :: rest => if k' = k then rest else (k', v') :: mapDel k rest

/-- The whole server state: the `rooms` map plus every connection's `clientInfo`. -/
structure ServerState where
  rooms : List (String × Room)
  sessions : List (Handle × ClientInfo)
deriving Repr, DecidableEq

def initState : ServerState := { rooms := [], sessions := [] }

/-- Messages the server sends back over a connection.  Where the source
interpolates a count into a human-readable string, the count is carried
as a field. -/
inductive OutMsg where
  | error (msg : String)
  | pong
  | connected
  | waitingForTarget
  | targetAcquired (count : Nat)
  | clientCount (count : Nat)
  | prankMessage (payload : Payload)
  | prankDelivered (delivered total : Nat)
  | senderDisconnected
  | targetUpdate (count : Nat)
  | targetLost
deriving Repr, DecidableEq

/-- `broadcastClientCount(roomCode)`: no-op unless the room and its sender
exist; otherwise one `client_count` message to the sender. -/
def broadcastClientCount (roomCode : String) (st : ServerState) :
    List (Handle × OutMsg) :=
  match mapGet roomCode st.rooms with
  | none => []
  | some room =>
    match room.sender with
    | none => []
    | some s => [(s, OutMsg.clientCount room.clients.length)]

/-- `handleSenderJoin(ws, message)`. -/
def handleSenderJoin (h : Handle) (roomCode : String) (st : ServerState) :
    ServerState × List (Handle × OutMsg) :=
  if roomCode ≠ PRANK_ROOM_CODE then
    (st, [(h, OutMsg.error "Invalid room code")])
  else
    let rooms1 := if mapHas roomCode st.rooms then st.rooms
                  else mapSet roomCode emptyRoom st.rooms
    let room0 := (mapGet roomCode rooms1).getD emptyRoom
    let room : Room := { room0 with sender := some h }
    let rooms2 := mapSet roomCode room rooms1
    let sessions2 :=
      mapSet h { role := SessionType.sender, roomCode := roomCode } st.sessions
    let st2 : ServerState := { rooms := rooms2, sessions := sessions2 }
    let countMsgs := broadcastClientCount roomCode st2
    let readyMsgs :=
      if room.clients.length > 0 then
        [(h, OutMsg.targetAcquired room.clients.length)]
      else
        [(h, OutMsg.waitingForTarget)]
    (st2, countMsgs ++ readyMsgs)

/-- `handleClientJoin(ws, message)`. -/
def handleClientJoin (h : Handle) (roomCode : String) (st : ServerState) :
    ServerState × List (Handle × OutMsg) :=
  if roomCode ≠ PRANK_ROOM_CODE then
    (st, [(h, OutMsg.error "Invalid room code")])
  else
    let rooms1 := if mapHas roomCode st.rooms then st.rooms
                  else mapSet roomCode emptyRoom st.rooms
    let room0 := (mapGet roomCode rooms1).getD emptyRoom
    let room : Room := { room0 with clients := room0.clients ++ [h] }
    let rooms2 := mapSet roomCode room rooms1
    let sessions2 :=
      mapSet h { role := SessionType.client, roomCode := roomCode } st.sessions
    let st2 : ServerState := { rooms := rooms2, sessions := sessions2 }
    let countMsgs := broadcastClientCount roomCode st2
    let acquiredMsgs :=
      match room.sender with
      | some s => [(s, OutMsg.targetAcquired room.clients.length)]
      | none => []
    (st2, (h, OutMsg.connected) :: countMsgs ++ acquiredMsgs)

/-- `handlePrankMessage(ws, message)`.  Returns `none` when the handler
throws (reading `message.payload.type` with no payload), which the outer
catch turns into a silent drop. -/
def handlePrankMessage (h : Handle) (payload : Option Payload)
    (failing : List Handle) (st : ServerState) :
    Option (ServerState × List (Handle × OutMsg)) :=
  match mapGet h st.sessions with
  | none => some (st, [(h, OutMsg.error "Only senders can send prank messages")])
  | some info =>
    if info.role ≠ SessionType.sender then
      some (st, [(h, OutMsg.error "Only senders can send prank messages")])
    else
      match mapGet info.roomCode st.rooms with
      | none => some (st, [(h, OutMsg.error "No targets connected")])
      | some room =>
        if room.clients.length = 0 then
          some (st, [(h, OutMsg.error "No targets connected")])
        else
          match payload with
          | none => none
          | some p =>
            let delivered := room.clients.filter (fun c => !(failing.contains c))
            some (st,
              delivered.map (fun c => (c, OutMsg.prankMessage p))
                ++ [(h, OutMsg.prankDelivered delivered.length room.clients.length)])

/-- `findIndex(client => client === clientInfo.ws)` followed by
`splice(clientIndex, 1)`: remove the first occurrence of the handle, if any. -/
def removeClient (h : Handle) : List Handle → List Handle
  | [] => []
  | c :: rest => if c = h then rest else c :: removeClient h rest

/-- `handleDisconnection(info)`, fired from the `close` event when
`clientInfo` is set; the per-connection session dies with the connection. -/
def handleDisconnection (h : Handle) (failing : List Handle) (st : ServerState) :
    ServerState × List (Handle × OutMsg) :=
  match mapGet h st.sessions with
  | none => (st, [])
  | some info =>
    let sessions2 := mapDel h st.sessions
    match mapGet info.roomCode st.rooms with
    | none => ({ rooms := st.rooms, sessions := sessions2 }, [])
    | some room =>
      match info.role with
      | SessionType.sender =>
        let room2 : Room := { room with sender := none }
        let notifyMsgs :=
          (room2.clients.filter (fun c => !(failing.contains c))).map
            (fun c => (c, OutMsg.senderDisconnected))
        let rooms2 := mapSet info.roomCode room2 st.rooms
        let rooms3 :=
          if room2.sender = none ∧ room2.clients.length = 0 then
            mapDel info.roomCode rooms2
          else rooms2
        ({ rooms := rooms3, sessions := sessions2 }, notifyMsgs)
      | SessionType.client =>
        let room2 : Room := { room with clients := removeClient h room.clients }
        let rooms2 := mapSet info.roomCode room2 st.rooms
        let stMid : ServerState := { rooms := rooms2, sessions := sessions2 }
        let countMsgs := broadcastClientCount info.roomCode stMid
        let updateMsgs :=
          match room2.sender with
          | none => []
          | some s =>
            if room2.clients.length > 0 then
              [(s, OutMsg.targetUpdate room2.clients.length)]
            else
              [(s, OutMsg.targetLost)]
        let rooms3 :=
          if room2.sender = none ∧ room2.clients.length = 0 then
            mapDel info.roomCode rooms2
          else rooms2
        ({ rooms := rooms3, sessions := sessions2 }, countMsgs ++ updateMsgs)

/-- Inbound protocol messages (after JSON parsing). -/
inductive InMsg where
  | senderJoin (roomCode : String)
  | clientJoin (roomCode : String)
  | prankMessage (payload : Option Payload)
  | ping
  | unknown
deriving Repr, DecidableEq

/-- One transport event: a parsed message from a connection, or its close.
`failing` lists the handles whose `send` throws during this event. -/
inductive Event where
  | msg (h : Handle) (m : InMsg) (failing : List Handle)
  | close (h : Handle) (failing : List Handle)
deriving Repr, DecidableEq

/-- The `ws.on('message')` dispatch plus the `close` handler. -/
def step (st : ServerState) (e : Event) : ServerState × List (Handle × OutMsg) :=
  match e with
  | Event.msg h m failing =>
    match m with
    | InMsg.senderJoin rc => handleSenderJoin h rc st
    | InMsg.clientJoin rc => handleClientJoin h rc st
    | InMsg.prankMessage p =>
      match handlePrankMessage h p failing st with
      | some r => r
      | none => (st, [])
    | InMsg.ping => (st, [(h, OutMsg.pong)])
    | InMsg.unknown => (st, [])
  | Event.close h failing => handleDisconnection h failing st

/-- Process a sequence of events, accumulating all sent messages. -/
def run (st : ServerState) : List Event → ServerState × List (Handle × OutMsg)
  | [] => (st, [])
  | e :: es =>
    let r := step st e
    let rest := run r.1 es
    (rest.1, r.2 ++ rest.2)

/-- The registry/session state reached from startup by a sequence of events. -/
def execState (es : List Event) : ServerState := (run initState es).1

/-- The handle of a join message (either role), if the event is one. -/
def eventJoins : Event → List Handle
  | Event.msg h (InMsg.senderJoin _) _ => [h]
  | Event.msg h (InMsg.clientJoin _) _ => [h]
  | _ => []

/-- Handles of all join messages (either role) in an event sequence. -/
def joinHandles : List Event → List Handle
  | [] => []
  | e :: es => eventJoins e ++ joinHandles es

/-- Per-room part of the membership invariant, relative to the list `js`
of handles that have sent a join message so far. -/
def roomOk (js : List Handle) (r : Room) : Prop :=
  r.clients.Nodup
  ∧ (∀ s, r.sender = some s → s ∉ r.clients)
  ∧ (∀ c ∈ r.clients, c ∈ js)
  ∧ (∀ s, r.sender = some s → s ∈ js)

/-- Membership invariant over a registry. -/
def JoinInv (js : List Handle) (rooms : List (String × Room)) : Prop :=
  ∀ k r, mapGet k rooms = some r → roomOk js r

/-- One valid client join per listed handle, no send failures. -/
def clientJoinEvents (hs : List Handle) : List Event :=
  hs.map (fun h => Event.msg h (InMsg.clientJoin PRANK_ROOM_CODE) [])

/-- The messages produced by a chain of client joins into a room whose
sender is `s` and whose client list starts as `cs`. -/
def clientJoinBlocks (s : Handle) (cs : List Handle) : List Handle → List (Handle × OutMsg)
  | [] => []
  | h :: hs =>
    (h, OutMsg.connected)
      :: (s, OutMsg.clientCount (cs.length + 1))
      :: (s, OutMsg.targetAcquired (cs.length + 1))
      :: clientJoinBlocks s (cs ++ [h]) hs

/-- The payload of the last `client_count` message addressed to `s`,
folding left over the sent messages with accumulator `acc`. -/
def lastClientCountFrom (s : Handle) (acc : Option Nat) :
    List (Handle × OutMsg) → Option Nat
  | [] => acc
  | (h, OutMsg.clientCount n) :: rest =>
    lastClientCountFrom s (if h = s then some n else acc) rest
  | _ :: rest => lastClientCountFrom s acc rest

/-- The payload of the most recent `client_count` message addressed to `s`. -/
def lastClientCountTo (s : Handle) (outs : List (Handle × OutMsg)) : Option Nat :=
  lastClientCountFrom s none outs

/-! ### Lemmas about the map operations -/

lemma mapGet_mapSet_self {κ β : Type} [DecidableEq κ] (k : κ) (v : β)
    (m : List (κ × β)) : mapGet k (mapSet k v m) = some v := by
  induction m with
  | nil => simp [mapGet, mapSet]
  | cons p rest ih =>
    by_cases hk : p.1 = k
    · simp [mapSet, hk, mapGet]
    · simpa [mapSet, hk, mapGet] using ih

lemma mapGet_mapSet_ne {κ β : Type} [DecidableEq κ] {k k' : κ} (v : β)
    (m : List (κ × β)) (hne : k' ≠ k) :
    mapGet k (mapSet k' v m) = mapGet k m := by
  have hne2 : ¬(k = k') := fun hk => hne hk.symm
  induction m with
  | nil => simp [mapGet, mapSet, hne]
  | cons p rest ih =>
    by_cases hk : p.1 = k'
    · simp [mapSet, hk, mapGet, hne]
    · by_cases hk2 : p.1 = k <;> simp [mapSet, hk, mapGet, hk2, hne2, ih]

/-- The `if (!rooms.has(code)) rooms.set(code, empty); rooms.get(code)`
idiom always yields the old room, defaulted to an empty one. -/
lemma mapGet_getOrCreate (k : String) (m : List (String × Room)) :
    mapGet k (if mapHas k m then m else mapSet k emptyRoom m) =
      some ((mapGet k m).getD emptyRoom) := by
  cases hm : mapGet k m with
  | none => simp [mapHas, hm, mapGet_mapSet_self]
  | some r => simp [mapHas, hm]

/-! ### Characterizations of the handlers -/

/-- A sender join with the correct code, from any prior state. -/
lemma handleSenderJoin_valid (h : Handle) (st : ServerState) :
    handleSenderJoin h PRANK_ROOM_CODE st =
      ({ rooms := mapSet PRANK_ROOM_CODE
            { sender := some h,
              clients := ((mapGet PRANK_ROOM_CODE st.rooms).getD emptyRoom).clients }
            (if mapHas PRANK_ROOM_CODE st.rooms then st.rooms
             else mapSet PRANK_ROOM_CODE emptyRoom st.rooms),
         sessions := mapSet h ⟨SessionType.sender, PRANK_ROOM_CODE⟩ st.sessions },
       (h, OutMsg.clientCount ((mapGet PRANK_ROOM_CODE st.rooms).getD emptyRoom).clients.length)
         :: (if 0 < ((mapGet PRANK_ROOM_CODE st.rooms).getD emptyRoom).clients.length then
               [(h, OutMsg.targetAcquired
                   ((mapGet PRANK_ROOM_CODE st.rooms).getD emptyRoom).clients.length)]
             else [(h, OutMsg.waitingForTarget)])) := by
  unfold handleSenderJoin
  rw [if_neg (by simp)]
  simp [mapGet_getOrCreate, Option.getD_some, broadcastClientCount,
    mapGet_mapSet_self]

/-- A client join with the correct code, from any prior state. -/
lemma handleClientJoin_valid (h : Handle) (st : ServerState) :
    handleClientJoin h PRANK_ROOM_CODE st =
      ({ rooms := mapSet PRANK_ROOM_CODE
            { sender := ((mapGet PRANK_ROOM_CODE st.rooms).getD emptyRoom).sender,
              clients := ((mapGet PRANK_ROOM_CODE st.rooms).getD emptyRoom).clients ++ [h] }
            (if mapHas PRANK_ROOM_CODE st.rooms then st.rooms
             else mapSet PRANK_ROOM_CODE emptyRoom st.rooms),
         sessions := mapSet h ⟨SessionType.client, PRANK_ROOM_CODE⟩ st.sessions },
       (h, OutMsg.connected)
         :: (match ((mapGet PRANK_ROOM_CODE st.rooms).getD emptyRoom).sender with
             | some s =>
               [(s, OutMsg.clientCount
                   (((mapGet PRANK_ROOM_CODE st.rooms).getD emptyRoom).clients ++ [h]).length),
                (s, OutMsg.targetAcquired
                   (((mapGet PRANK_ROOM_CODE st.rooms).getD emptyRoom).clients ++ [h]).length)]
             | none => [])) := by
  unfold handleClientJoin
  rw [if_neg (by simp)]
  simp only [mapGet_getOrCreate, Option.getD_some, broadcastClientCount,
    mapGet_mapSet_self]
  cases ((mapGet PRANK_ROOM_CODE st.rooms).getD emptyRoom).sender <;> simp

/-- A join with a wrong code: one error message, nothing else. -/
lemma handleSenderJoin_invalid (h : Handle) (rc : String) (st : ServerState)
    (hne : rc ≠ PRANK_ROOM_CODE) :
    handleSenderJoin h rc st = (st, [(h, OutMsg.error "Invalid room code")]) := by
  unfold handleSenderJoin
  rw [if_pos hne]

/-- A join with a wrong code: one error message, nothing else. -/
lemma handleClientJoin_invalid (h : Handle) (rc : String) (st : ServerState)
    (hne : rc ≠ PRANK_ROOM_CODE) :
    handleClientJoin h rc st = (st, [(h, OutMsg.error "Invalid room code")]) := by
  unfold handleClientJoin
  rw [if_pos hne]

/-- `handlePrankMessage` never mutates the server state. -/
lemma handlePrankMessage_fst (h : Handle) (p : Option Payload) (f : List Handle)
    (st : ServerState) (r : ServerState × List (Handle × OutMsg))
    (hr : handlePrankMessage h p f st = some r) : r.1 = st := by
  unfold handlePrankMessage at hr
  repeat' split at hr
  all_goals first
    | exact Option.noConfusion hr
    | (injection hr with hr; rw [← hr])

/-- A `prank_message` event leaves the state unchanged, whether it is
answered, rejected or dropped by the outer catch. -/
lemma stepState_prankMessage (h : Handle) (p : Option Payload) (f : List Handle)
    (st : ServerState) :
    (step st (Event.msg h (InMsg.prankMessage p) f)).1 = st := by
  show (match handlePrankMessage h p f st with
        | some r => r
        | none => (st, [])).1 = st
  cases hr : handlePrankMessage h p f st with
  | none => rfl
  | some r => exact handlePrankMessage_fst h p f st r hr

/-! ### The reachable shape of the registry -/

/-- Invariant: the registry is empty, or holds exactly one room, keyed by
the secret, with a sender present or a non-empty client list. -/
def RoomsInv (st : ServerState) : Prop :=
  st.rooms = [] ∨
    ∃ r : Room, st.rooms = [(PRANK_ROOM_CODE, r)] ∧ (r.sender ≠ none ∨ r.clients ≠ [])

lemma roomsInv_init : RoomsInv initState := Or.inl rfl

lemma stepState_roomsInv (st : ServerState) (e : Event) (hinv : RoomsInv st) :
    RoomsInv (step st e).1 := by
  cases e with
  | msg h m f =>
    cases m with
    | senderJoin rc =>
      by_cases hrc : rc = PRANK_ROOM_CODE
      · subst hrc
        show RoomsInv (handleSenderJoin h PRANK_ROOM_CODE st).1
        rw [handleSenderJoin_valid]
        rcases hinv with hnil | ⟨r, hr, _⟩
        · refine Or.inr ⟨⟨some h, []⟩, ?_, by simp⟩
          simp [hnil, mapHas, mapGet, mapSet, emptyRoom]
        · refine Or.inr ⟨⟨some h, r.clients⟩, ?_, by simp⟩
          simp [hr, mapHas, mapGet, mapSet]
      · show RoomsInv (handleSenderJoin h rc st).1
        rw [handleSenderJoin_invalid h rc st hrc]
        exact hinv
    | clientJoin rc =>
      by_cases hrc : rc = PRANK_ROOM_CODE
      · subst hrc
        show RoomsInv (handleClientJoin h PRANK_ROOM_CODE st).1
        rw [handleClientJoin_valid]
        rcases hinv with hnil | ⟨r, hr, _⟩
        · refine Or.inr ⟨⟨none, [h]⟩, ?_, by simp⟩
          simp [hnil, mapHas, mapGet, mapSet, emptyRoom]
        · refine Or.inr ⟨⟨r.sender, r.clients ++ [h]⟩, ?_, by simp⟩
          simp [hr, mapHas, mapGet, mapSet]
      · show RoomsInv (handleClientJoin h rc st).1
        rw [handleClientJoin_invalid h rc st hrc]
        exact hinv
    | prankMessage p => rw [stepState_prankMessage]; exact hinv
    | ping => exact hinv
    | unknown => exact hinv
  | close h f =>
    show RoomsInv (handleDisconnection h f st).1
    cases hs : mapGet h st.sessions with
    | none =>
      simp only [handleDisconnection, hs]
      exact hinv
    | some info =>
      cases hroom : mapGet info.roomCode st.rooms with
      | none =>
        simp only [handleDisconnection, hs, hroom]
        exact hinv
      | some room =>
        rcases hinv with hnil | ⟨r, hr, _⟩
        · rw [hnil] at hroom
          simp [mapGet] at hroom
        · have hroom2 := hroom
          rw [hr] at hroom2
          by_cases hk : PRANK_ROOM_CODE = info.roomCode
          rotate_left
          · simp [mapGet, hk] at hroom2
          · simp only [mapGet, if_pos hk, Option.some.injEq] at hroom2
            subst hroom2
            cases hrole : info.role with
            | sender =>
              simp only [handleDisconnection, hs, hroom, hrole]
              by_cases hcl : r.clients.length = 0
              · refine Or.inl ?_
                simp [hr, ← hk, mapSet, mapDel, hcl]
              · refine Or.inr ⟨⟨none, r.clients⟩, ?_, Or.inr ?_⟩
                · simp [hr, ← hk, mapSet, mapDel, hcl]
                · intro hcc
                  have hcc2 : r.clients = [] := hcc
                  exact hcl (by rw [hcc2]; rfl)
            | client =>
              simp only [handleDisconnection, hs, hroom, hrole]
              by_cases hcond : r.sender = none ∧ (removeClient h r.clients).length = 0
              · refine Or.inl ?_
                simp [hr, ← hk, mapSet, mapDel, hcond.1, hcond.2]
              · refine Or.inr ⟨⟨r.sender, removeClient h r.clients⟩, ?_, ?_⟩
                · dsimp only
                  split
                  · rename_i hcpos
                    exact absurd hcpos hcond
                  · simp [hr, ← hk, mapSet]
                · rcases not_and_or.mp hcond with hs1 | hs2
                  · exact Or.inl hs1
                  · refine Or.inr ?_
                    intro hcc
                    have hcc2 : removeClient h r.clients = [] := hcc
                    exact hs2 (by rw [hcc2]; rfl)

lemma run_roomsInv (es : List Event) :
    ∀ st : ServerState, RoomsInv st → RoomsInv (run st es).1 := by
  induction es with
  | nil => intro st h; exact h
  | cons e es ih =>
    intro st h
    exact ih (step st e).1 (stepState_roomsInv st e h)

lemma execState_roomsInv (es : List Event) : RoomsInv (execState es) :=
  run_roomsInv es initState roomsInv_init

/-! ### Computed registry contents after joins -/

lemma senderJoin_rooms_nil (h : Handle) (st : ServerState) (hnil : st.rooms = []) :
    (handleSenderJoin h PRANK_ROOM_CODE st).1.rooms =
      [(PRANK_ROOM_CODE, ⟨some h, []⟩)] := by
  rw [handleSenderJoin_valid]
  simp [hnil, mapHas, mapGet, mapSet, emptyRoom]

lemma senderJoin_rooms_one (h : Handle) (st : ServerState) (r : Room)
    (hr : st.rooms = [(PRANK_ROOM_CODE, r)]) :
    (handleSenderJoin h PRANK_ROOM_CODE st).1.rooms =
      [(PRANK_ROOM_CODE, ⟨some h, r.clients⟩)] := by
  rw [handleSenderJoin_valid]
  simp [hr, mapHas, mapGet, mapSet]

lemma clientJoin_rooms_nil (h : Handle) (st : ServerState) (hnil : st.rooms = []) :
    (handleClientJoin h PRANK_ROOM_CODE st).1.rooms =
      [(PRANK_ROOM_CODE, ⟨none, [h]⟩)] := by
  rw [handleClientJoin_valid]
  simp [hnil, mapHas, mapGet, mapSet, emptyRoom]

lemma clientJoin_rooms_one (h : Handle) (st : ServerState) (r : Room)
    (hr : st.rooms = [(PRANK_ROOM_CODE, r)]) :
    (handleClientJoin h PRANK_ROOM_CODE st).1.rooms =
      [(PRANK_ROOM_CODE, ⟨r.sender, r.clients ++ [h]⟩)] := by
  rw [handleClientJoin_valid]
  simp [hr, mapHas, mapGet, mapSet]

/-! ### The prank handler, branch by branch -/

/-- A `prank_message` from a connection that is not a joined sender. -/
lemma handlePrankMessage_not_sender (h : Handle) (p : Option Payload)
    (f : List Handle) (st : ServerState)
    (hns : ∀ info, mapGet h st.sessions = some info →
      info.role ≠ SessionType.sender) :
    handlePrankMessage h p f st =
      some (st, [(h, OutMsg.error "Only senders can send prank messages")]) := by
  cases hs : mapGet h st.sessions with
  | none => simp [handlePrankMessage, hs]
  | some info =>
    simp only [handlePrankMessage, hs]
    rw [if_pos (hns info hs)]

/-- A `prank_message` from a sender whose room is missing or has no
clients. -/
lemma handlePrankMessage_no_targets (h : Handle) (p : Option Payload)
    (f : List Handle) (st : ServerState) (info : ClientInfo)
    (hs : mapGet h st.sessions = some info)
    (hrole : info.role = SessionType.sender)
    (hempty : ∀ room, mapGet info.roomCode st.rooms = some room →
      room.clients = []) :
    handlePrankMessage h p f st =
      some (st, [(h, OutMsg.error "No targets connected")]) := by
  simp only [handlePrankMessage, hs]
  rw [if_neg (by simp [hrole])]
  cases hr : mapGet info.roomCode st.rooms with
  | none => rfl
  | some room =>
    dsimp only
    rw [if_pos (by rw [hempty room hr]; rfl)]

/-- The fan-out: one `prank_message` per client whose send does not throw,
then a receipt counting the successes against the full client list. -/
lemma handlePrankMessage_deliver (h : Handle) (p : Payload) (f : List Handle)
    (st : ServerState) (info : ClientInfo) (room : Room)
    (hs : mapGet h st.sessions = some info)
    (hrole : info.role = SessionType.sender)
    (hroom : mapGet info.roomCode st.rooms = some room)
    (hne : room.clients.length ≠ 0) :
    handlePrankMessage h (some p) f st =
      some (st,
        (room.clients.filter (fun c => !(f.contains c))).map
            (fun c => (c, OutMsg.prankMessage p))
          ++ [(h, OutMsg.prankDelivered
                (room.clients.filter (fun c => !(f.contains c))).length
                room.clients.length)]) := by
  simp only [handlePrankMessage, hs, hroom]
  rw [if_neg (by simp [hrole]), if_neg hne]

/-- A `prank_message` with no payload from a sender with a populated room:
the handler throws before any send. -/
lemma handlePrankMessage_missing_payload (h : Handle) (f : List Handle)
    (st : ServerState) (info : ClientInfo) (room : Room)
    (hs : mapGet h st.sessions = some info)
    (hrole : info.role = SessionType.sender)
    (hroom : mapGet info.roomCode st.rooms = some room)
    (hne : room.clients.length ≠ 0) :
    handlePrankMessage h none f st = none := by
  simp only [handlePrankMessage, hs, hroom]
  rw [if_neg (by simp [hrole]), if_neg hne]

/-! ### removeClient -/

/-- Removal is by handle identity: the first occurrence goes, everything
around it is untouched. -/
lemma removeClient_append (h : Handle) (xs ys : List Handle) (hx : h ∉ xs) :
    removeClient h (xs ++ h :: ys) = xs ++ ys := by
  induction xs with
  | nil => simp [removeClient]
  | cons a xs ih =>
    have ha : a ≠ h := fun hah => hx (hah ▸ List.mem_cons_self a xs)
    have hx2 : h ∉ xs := fun hmem => hx (List.mem_cons_of_mem a hmem)
    simp only [List.cons_append, removeClient, if_neg ha, List.append_eq, ih hx2]

lemma removeClient_sublist (h : Handle) (cs : List Handle) :
    (removeClient h cs).Sublist cs := by
  induction cs with
  | nil => simp [removeClient]
  | cons c rest ih =>
    by_cases hc : c = h
    · simp only [removeClient, if_pos hc]
      exact List.sublist_cons_self c rest
    · simp only [removeClient, if_neg hc]
      exact ih.cons₂ c

/-! ### The membership invariant under the one-join-per-handle discipline -/

lemma roomOk_mono {js js' : List Handle} (hsub : ∀ x ∈ js, x ∈ js')
    {r : Room} (hok : roomOk js r) : roomOk js' r :=
  ⟨hok.1, hok.2.1, fun c hc => hsub c (hok.2.2.1 c hc),
    fun s hs => hsub s (hok.2.2.2 s hs)⟩

lemma joinInv_nil_rooms (js : List Handle) : JoinInv js [] := by
  intro k r hget
  simp [mapGet] at hget

lemma joinInv_singleton (js : List Handle) (k0 : String) (r0 : Room)
    (hok : roomOk js r0) : JoinInv js [(k0, r0)] := by
  intro k r hget
  simp only [mapGet] at hget
  by_cases hk : k0 = k
  · rw [if_pos hk, Option.some.injEq] at hget
    exact hget ▸ hok
  · rw [if_neg hk] at hget
    simp [mapGet] at hget

lemma joinInv_singleton_elim (js : List Handle) (k0 : String) (r0 : Room)
    (hinv : JoinInv js [(k0, r0)]) : roomOk js r0 :=
  hinv k0 r0 (by simp [mapGet])

lemma joinInv_mono {js js' : List Handle} (hsub : ∀ x ∈ js, x ∈ js')
    {rooms : List (String × Room)} (hinv : JoinInv js rooms) :
    JoinInv js' rooms :=
  fun k r hget => roomOk_mono hsub (hinv k r hget)

/-- One event preserves the membership invariant, provided the handles it
joins are fresh. -/
lemma step_joinInv (st : ServerState) (e : Event) (js : List Handle)
    (hshape : RoomsInv st) (hinv : JoinInv js st.rooms)
    (hfresh : ∀ x ∈ eventJoins e, x ∉ js) :
    JoinInv (js ++ eventJoins e) (step st e).1.rooms := by
  have hsub : ∀ x ∈ js, x ∈ js ++ eventJoins e :=
    fun x hx => List.mem_append_left _ hx
  cases e with
  | msg h m f =>
    cases m with
    | senderJoin rc =>
      have hh : h ∉ js := hfresh h (by simp [eventJoins])
      by_cases hrc : rc = PRANK_ROOM_CODE
      · subst hrc
        show JoinInv _ (handleSenderJoin h PRANK_ROOM_CODE st).1.rooms
        rcases hshape with hnil | ⟨r0, hr0, _⟩
        · rw [senderJoin_rooms_nil h st hnil]
          refine joinInv_singleton _ _ _ ⟨List.nodup_nil, ?_, ?_, ?_⟩
          · intro s _
            exact List.not_mem_nil s
          · intro c hc
            exact absurd hc (List.not_mem_nil c)
          · intro s hsm
            rw [Option.some.injEq] at hsm
            subst hsm
            simp [eventJoins]
        · rw [senderJoin_rooms_one h st r0 hr0]
          have hok := joinInv_singleton_elim js PRANK_ROOM_CODE r0 (hr0 ▸ hinv)
          refine joinInv_singleton _ _ _ ?_
          refine ⟨hok.1, ?_, ?_, ?_⟩
          · intro s hs
            rw [Option.some.injEq] at hs
            intro hmem
            exact hh (hs.symm ▸ hok.2.2.1 s hmem)
          · intro c hc
            exact List.mem_append_left _ (hok.2.2.1 c hc)
          · intro s hs
            rw [Option.some.injEq] at hs
            rw [← hs]
            exact List.mem_append_right _ (by simp [eventJoins])
      · show JoinInv _ (handleSenderJoin h rc st).1.rooms
        rw [handleSenderJoin_invalid h rc st hrc]
        exact joinInv_mono hsub hinv
    | clientJoin rc =>
      have hh : h ∉ js := hfresh h (by simp [eventJoins])
      by_cases hrc : rc = PRANK_ROOM_CODE
      · subst hrc
        show JoinInv _ (handleClientJoin h PRANK_ROOM_CODE st).1.rooms
        rcases hshape with hnil | ⟨r0, hr0, _⟩
        · rw [clientJoin_rooms_nil h st hnil]
          refine joinInv_singleton _ _ _ ?_
          refine ⟨List.nodup_singleton h, ?_, ?_, ?_⟩
          · intro s hs
            exact absurd hs (by simp)
          · intro c hc
            rw [List.mem_singleton] at hc
            subst hc
            exact List.mem_append_right _ (by simp [eventJoins])
          · intro s hs
            exact absurd hs (by simp)
        · rw [clientJoin_rooms_one h st r0 hr0]
          have hok := joinInv_singleton_elim js PRANK_ROOM_CODE r0 (hr0 ▸ hinv)
          refine joinInv_singleton _ _ _ ?_
          refine ⟨?_, ?_, ?_, ?_⟩
          · rw [List.nodup_append]
            refine ⟨hok.1, List.nodup_singleton h, ?_⟩
            intro a ha hb
            rw [List.mem_singleton] at hb
            exact hh (hb ▸ hok.2.2.1 a ha)
          · intro s hsm hc
            rcases List.mem_append.mp hc with hc1 | hc2
            · exact hok.2.1 s hsm hc1
            · rw [List.mem_singleton] at hc2
              exact hh (hc2 ▸ hok.2.2.2 s hsm)
          · intro c hc
            rcases List.mem_append.mp hc with hc1 | hc2
            · exact List.mem_append_left _ (hok.2.2.1 c hc1)
            · rw [List.mem_singleton] at hc2
              rw [hc2]
              exact List.mem_append_right _ (by simp [eventJoins])
          · intro s hsm
            exact List.mem_append_left _ (hok.2.2.2 s hsm)
      · show JoinInv _ (handleClientJoin h rc st).1.rooms
        rw [handleClientJoin_invalid h rc st hrc]
        exact joinInv_mono hsub hinv
    | prankMessage p =>
      rw [stepState_prankMessage]
      exact joinInv_mono hsub hinv
    | ping => exact joinInv_mono hsub hinv
    | unknown => exact joinInv_mono hsub hinv
  | close h f =>
    show JoinInv _ (handleDisconnection h f st).1.rooms
    cases hs : mapGet h st.sessions with
    | none =>
      simp only [handleDisconnection, hs]
      exact joinInv_mono hsub hinv
    | some info =>
      cases hroom : mapGet info.roomCode st.rooms with
      | none =>
        simp only [handleDisconnection, hs, hroom]
        exact joinInv_mono hsub hinv
      | some room =>
        rcases hshape with hnil | ⟨r0, hr0, _⟩
        · rw [hnil] at hroom
          simp [mapGet] at hroom
        · have hroom2 := hroom
          rw [hr0] at hroom2
          by_cases hk : PRANK_ROOM_CODE = info.roomCode
          rotate_left
          · simp [mapGet, hk] at hroom2
          · simp only [mapGet, if_pos hk, Option.some.injEq] at hroom2
            subst hroom2
            have hok : roomOk js r0 := hinv info.roomCode r0 hroom
            cases hrole : info.role with
            | sender =>
              simp only [handleDisconnection, hs, hroom, hrole]
              split
              · intro k r hget
                rw [hr0, ← hk] at hget
                simp [mapSet, mapDel, mapGet] at hget
              · intro k r hget
                rw [hr0, ← hk] at hget
                simp only [mapSet, if_pos rfl, mapGet] at hget
                by_cases hkk : PRANK_ROOM_CODE = k
                rotate_left
                · rw [if_neg hkk] at hget
                  simp [mapGet] at hget
                · rw [if_pos hkk, Option.some.injEq] at hget
                  refine roomOk_mono hsub ?_
                  rw [← hget]
                  exact ⟨hok.1, fun s hsm => by simp at hsm,
                    hok.2.2.1, fun s hsm => by simp at hsm⟩
            | client =>
              simp only [handleDisconnection, hs, hroom, hrole]
              split
              · intro k r hget
                rw [hr0, ← hk] at hget
                simp [mapSet, mapDel, mapGet] at hget
              · intro k r hget
                rw [hr0, ← hk] at hget
                simp only [mapSet, if_pos rfl, mapGet] at hget
                by_cases hkk : PRANK_ROOM_CODE = k
                rotate_left
                · rw [if_neg hkk] at hget
                  simp [mapGet] at hget
                · rw [if_pos hkk, Option.some.injEq] at hget
                  refine roomOk_mono hsub ?_
                  rw [← hget]
                  have hsl := removeClient_sublist h r0.clients
                  exact ⟨hok.1.sublist hsl,
                    fun s hsm hmem => hok.2.1 s hsm (hsl.mem hmem),
                    fun c hc => hok.2.2.1 c (hsl.mem hc),
                    hok.2.2.2⟩

/-- Folding `step_joinInv` over a trace whose join handles are pairwise
distinct and fresh. -/
lemma run_joinInv (es : List Event) :
    ∀ (st : ServerState) (js : List Handle), RoomsInv st → JoinInv js st.rooms →
      (∀ x ∈ joinHandles es, x ∉ js) → (joinHandles es).Nodup →
      JoinInv (js ++ joinHandles es) (run st es).1.rooms := by
  induction es with
  | nil =>
    intro st js _ hinv _ _
    show JoinInv (js ++ []) st.rooms
    rw [List.append_nil]
    exact hinv
  | cons e es ih =>
    intro st js hshape hinv hdisj hnodup
    have hjh : joinHandles (e :: es) = eventJoins e ++ joinHandles es := rfl
    rw [hjh] at hdisj hnodup
    rw [List.nodup_append] at hnodup
    have h1 : JoinInv (js ++ eventJoins e) (step st e).1.rooms :=
      step_joinInv st e js hshape hinv
        (fun x hx => hdisj x (List.mem_append_left _ hx))
    have hfresh2 : ∀ x ∈ joinHandles es, x ∉ js ++ eventJoins e := by
      intro x hx hmem
      rcases List.mem_append.mp hmem with hj | hj
      · exact hdisj x (List.mem_append_right _ hx) hj
      · exact hnodup.2.2 hj hx
    have h2 := ih (step st e).1 (js ++ eventJoins e)
      (stepState_roomsInv st e hshape) h1 hfresh2 hnodup.2.1
    rw [List.append_assoc] at h2
    exact h2

/-- The per-item try/catch filter, when exactly the one handle `t` fails:
everybody else keeps their slot, in order. -/
lemma filter_not_failing_single (t : Handle) (xs ys : List Handle)
    (hx : t ∉ xs) (hy : t ∉ ys) :
    (xs ++ t :: ys).filter (fun c => !(List.contains [t] c)) = xs ++ ys := by
  have hxf : xs.filter (fun c => !(List.contains [t] c)) = xs := by
    rw [List.filter_eq_self]
    intro a ha
    simp [List.contains]
    exact fun hat => hx (hat ▸ ha)
  have hyf : ys.filter (fun c => !(List.contains [t] c)) = ys := by
    rw [List.filter_eq_self]
    intro a ha
    simp [List.contains]
    exact fun hat => hy (hat ▸ ha)
  rw [List.filter_append, hxf, List.filter_cons]
  simp [List.contains, hyf]
  intro a ha hat
  exact hy (hat ▸ ha)

/-! ### A sender join followed by N client joins -/

lemma clientJoin_sessions (h : Handle) (st : ServerState) :
    (handleClientJoin h PRANK_ROOM_CODE st).1.sessions =
      mapSet h ⟨SessionType.client, PRANK_ROOM_CODE⟩ st.sessions := by
  rw [handleClientJoin_valid]

lemma clientJoin_outs_one (h : Handle) (st : ServerState) (s : Handle)
    (cs : List Handle)
    (hr : st.rooms = [(PRANK_ROOM_CODE, ⟨some s, cs⟩)]) :
    (handleClientJoin h PRANK_ROOM_CODE st).2 =
      [(h, OutMsg.connected), (s, OutMsg.clientCount (cs.length + 1)),
       (s, OutMsg.targetAcquired (cs.length + 1))] := by
  rw [handleClientJoin_valid]
  simp [hr, mapGet]

/-- Running a chain of valid client joins against a room with a sender:
the registry, the sessions and the full message trace. -/
lemma run_clientJoins (hs : List Handle) :
    ∀ (st : ServerState) (s : Handle) (cs : List Handle),
      st.rooms = [(PRANK_ROOM_CODE, ⟨some s, cs⟩)] →
      (run st (clientJoinEvents hs)).1.rooms
          = [(PRANK_ROOM_CODE, ⟨some s, cs ++ hs⟩)]
      ∧ (run st (clientJoinEvents hs)).1.sessions =
          hs.foldl (fun acc h =>
            mapSet h ⟨SessionType.client, PRANK_ROOM_CODE⟩ acc) st.sessions
      ∧ (run st (clientJoinEvents hs)).2 = clientJoinBlocks s cs hs := by
  induction hs with
  | nil =>
    intro st s cs hr
    refine ⟨?_, rfl, rfl⟩
    rw [List.append_nil]
    exact hr
  | cons h hs ih =>
    intro st s cs hr
    have hstep : (step st (Event.msg h (InMsg.clientJoin PRANK_ROOM_CODE) [])).1.rooms
        = [(PRANK_ROOM_CODE, ⟨some s, cs ++ [h]⟩)] :=
      clientJoin_rooms_one h st ⟨some s, cs⟩ hr
    have ih2 := ih (step st (Event.msg h (InMsg.clientJoin PRANK_ROOM_CODE) [])).1
      s (cs ++ [h]) hstep
    refine ⟨?_, ?_, ?_⟩
    · show (run (step st (Event.msg h (InMsg.clientJoin PRANK_ROOM_CODE) [])).1
          (clientJoinEvents hs)).1.rooms = _
      rw [ih2.1, List.append_assoc]
      rfl
    · show (run (step st (Event.msg h (InMsg.clientJoin PRANK_ROOM_CODE) [])).1
          (clientJoinEvents hs)).1.sessions = _
      have hsess : (step st (Event.msg h (InMsg.clientJoin PRANK_ROOM_CODE) [])).1.sessions
          = mapSet h ⟨SessionType.client, PRANK_ROOM_CODE⟩ st.sessions :=
        clientJoin_sessions h st
      rw [ih2.2.1, hsess, List.foldl_cons]
    · show (step st (Event.msg h (InMsg.clientJoin PRANK_ROOM_CODE) [])).2
          ++ (run (step st (Event.msg h (InMsg.clientJoin PRANK_ROOM_CODE) [])).1
              (clientJoinEvents hs)).2 = _
      rw [ih2.2.2]
      show (handleClientJoin h PRANK_ROOM_CODE st).2 ++ _ = _
      rw [clientJoin_outs_one h st s cs hr]
      rfl

/-- The last `client_count` addressed to the sender across the join blocks
carries the final total, whatever the accumulator held before. -/
lemma lastClientCountFrom_blocks (s : Handle) (hs : List Handle) :
    ∀ (cs : List Handle) (acc : Option Nat), hs ≠ [] →
      lastClientCountFrom s acc (clientJoinBlocks s cs hs)
        = some (cs.length + hs.length) := by
  induction hs with
  | nil =>
    intro cs acc hne
    exact absurd rfl hne
  | cons h hs ih =>
    intro cs acc hne
    have hblock : lastClientCountFrom s acc (clientJoinBlocks s cs (h :: hs))
        = lastClientCountFrom s (some (cs.length + 1))
            (clientJoinBlocks s (cs ++ [h]) hs) := by
      simp [clientJoinBlocks, lastClientCountFrom]
    rw [hblock]
    by_cases hh : hs = []
    · subst hh
      simp [clientJoinBlocks, lastClientCountFrom]
    · rw [ih (cs ++ [h]) (some (cs.length + 1)) hh]
      simp [List.length_append]
      omega

/-- A handle that joins nothing keeps its session binding across the fold. -/
lemma mapGet_foldl_mapSet_ne (x : Handle) (hs : List Handle) :
    ∀ sess : List (Handle × ClientInfo), x ∉ hs →
      mapGet x (hs.foldl (fun acc h =>
          mapSet h ⟨SessionType.client, PRANK_ROOM_CODE⟩ acc) sess)
        = mapGet x sess := by
  induction hs with
  | nil => intro sess _; rfl
  | cons h hs ih =>
    intro sess hx
    rw [List.foldl_cons,
      ih _ (fun hm => hx (List.mem_cons_of_mem h hm)),
      mapGet_mapSet_ne _ _ (fun he => hx (by rw [← he]; exact List.mem_cons_self h hs))]

/-! ### Claims -/

/-- C1 counterexample: a connection that joined as client and then sends a
sender join with the valid code has its role silently switched to sender,
and its handle rebound as the room's sender while it still sits in the
client list — the second join is not rejected. -/
theorem C1_counterexample_role_overwritten :
    mapGet 0 (execState
        [Event.msg 0 (InMsg.clientJoin PRANK_ROOM_CODE) []]).sessions
      = some ⟨SessionType.client, PRANK_ROOM_CODE⟩
    ∧ mapGet 0 (execState
        [Event.msg 0 (InMsg.clientJoin PRANK_ROOM_CODE) [],
         Event.msg 0 (InMsg.senderJoin PRANK_ROOM_CODE) []]).sessions
      = some ⟨SessionType.sender, PRANK_ROOM_CODE⟩
    ∧ mapGet PRANK_ROOM_CODE (execState
        [Event.msg 0 (InMsg.clientJoin PRANK_ROOM_CODE) [],
         Event.msg 0 (InMsg.senderJoin PRANK_ROOM_CODE) []]).rooms
      = some ⟨some 0, [0]⟩ := by
  decide

/-- C1 amended: the handlers perform no already-joined check at all: a join
with the valid code, from any state and any prior role of the session,
unconditionally records the session under the new role and rebinds the
handle in the registry (last join wins). -/
theorem C1_amended_join_always_overwrites (st : ServerState) (h : Handle) :
    (mapGet h (handleSenderJoin h PRANK_ROOM_CODE st).1.sessions
        = some ⟨SessionType.sender, PRANK_ROOM_CODE⟩
      ∧ (mapGet PRANK_ROOM_CODE
            (handleSenderJoin h PRANK_ROOM_CODE st).1.rooms).map Room.sender
          = some (some h))
    ∧ (mapGet h (handleClientJoin h PRANK_ROOM_CODE st).1.sessions
        = some ⟨SessionType.client, PRANK_ROOM_CODE⟩
      ∧ ∃ r : Room,
          mapGet PRANK_ROOM_CODE (handleClientJoin h PRANK_ROOM_CODE st).1.rooms
            = some r ∧ h ∈ r.clients) := by
  refine ⟨⟨?_, ?_⟩, ?_, ?_⟩
  · rw [handleSenderJoin_valid]
    exact mapGet_mapSet_self _ _ _
  · rw [handleSenderJoin_valid]
    dsimp only
    rw [mapGet_mapSet_self]
    rfl
  · rw [handleClientJoin_valid]
    exact mapGet_mapSet_self _ _ _
  · rw [handleClientJoin_valid]
    dsimp only
    rw [mapGet_mapSet_self]
    exact ⟨_, rfl, by simp⟩

/-- C2 counterexample: two client joins from the same connection put that
handle twice into the room's target list. -/
theorem C2_counterexample_duplicate_target :
    mapGet PRANK_ROOM_CODE (execState
        [Event.msg 0 (InMsg.clientJoin PRANK_ROOM_CODE) [],
         Event.msg 0 (InMsg.clientJoin PRANK_ROOM_CODE) []]).rooms
      = some ⟨none, [0, 0]⟩
    ∧ ¬ ([0, 0] : List Handle).Nodup := by
  decide

/-- C2 amended: provided every connection sends at most one join message
(the discipline the spec imposes on callers), each reachable room has a
duplicate-free target list that never contains the room's sender, and the
registry never holds more than one room, so a handle sits in at most one
slot of at most one room. -/
theorem C2_amended_membership_invariant (es : List Event)
    (hnodup : (joinHandles es).Nodup) (k : String) (r : Room)
    (hr : mapGet k (execState es).rooms = some r) :
    r.clients.Nodup
    ∧ (∀ s, r.sender = some s → s ∉ r.clients)
    ∧ (execState es).rooms.length ≤ 1 := by
  have hinv := run_joinInv es initState [] roomsInv_init
    (joinInv_nil_rooms []) (fun x _ hx => (List.not_mem_nil x) hx) hnodup
  have hok := hinv k r hr
  refine ⟨hok.1, hok.2.1, ?_⟩
  rcases execState_roomsInv es with hnil | ⟨r', hr', _⟩
  · rw [hnil]
    simp
  · rw [hr']
    simp

theorem C2_amended_membership_invariant_witness :
    ([1] : List Handle).Nodup ∧ (0 : Handle) ∉ ([1] : List Handle) := by
  have h := C2_amended_membership_invariant
    [Event.msg 0 (InMsg.senderJoin PRANK_ROOM_CODE) [],
     Event.msg 1 (InMsg.clientJoin PRANK_ROOM_CODE) []]
    (by decide) PRANK_ROOM_CODE ⟨some 0, [1]⟩ (by decide)
  exact ⟨h.1, h.2.1 0 rfl⟩

/-- C4: every room present in a reachable registry has a sender or a
non-empty client list (a room emptied by reconciliation is removed in the
same step), and a room whose sender disconnects with zero clients is
deleted immediately. -/
theorem C4_room_exists_iff_populated :
    (∀ (es : List Event) (k : String) (r : Room),
        mapGet k (execState es).rooms = some r →
        (r.sender ≠ none ∨ r.clients ≠ []))
    ∧ (execState [Event.msg 0 (InMsg.senderJoin PRANK_ROOM_CODE) [],
        Event.close 0 []]).rooms = [] := by
  constructor
  · intro es k r hget
    rcases execState_roomsInv es with hnil | ⟨r', hr', hne⟩
    · rw [hnil] at hget
      simp [mapGet] at hget
    · rw [hr'] at hget
      by_cases hk : PRANK_ROOM_CODE = k
      rotate_left
      · simp [mapGet, hk] at hget
      · simp only [mapGet, if_pos hk, Option.some.injEq] at hget
        exact hget ▸ hne
  · decide

theorem C4_room_exists_iff_populated_witness :
    (some 0 : Option Handle) ≠ none ∨ ([] : List Handle) ≠ [] :=
  C4_room_exists_iff_populated.1
    [Event.msg 0 (InMsg.senderJoin PRANK_ROOM_CODE) []]
    PRANK_ROOM_CODE ⟨some 0, []⟩ (by decide)

/-- C5: every protocol rejection — wrong secret on either join, a
prank_message from a non-sender session, or a prank_message with no room
or no clients — answers the offending connection with exactly one error
message and leaves the whole server state unchanged (the handlers never
close a connection; closes only arise from transport `close` events). -/
theorem C5_rejections_send_error_only (st : ServerState) (h : Handle)
    (rc : String) (p : Option Payload) (failing : List Handle) :
    (rc ≠ PRANK_ROOM_CODE →
      handleSenderJoin h rc st = (st, [(h, OutMsg.error "Invalid room code")])
      ∧ handleClientJoin h rc st = (st, [(h, OutMsg.error "Invalid room code")]))
    ∧ ((∀ info, mapGet h st.sessions = some info →
          info.role ≠ SessionType.sender) →
      handlePrankMessage h p failing st =
        some (st, [(h, OutMsg.error "Only senders can send prank messages")]))
    ∧ (∀ info, mapGet h st.sessions = some info →
        info.role = SessionType.sender →
        (∀ room, mapGet info.roomCode st.rooms = some room → room.clients = []) →
        handlePrankMessage h p failing st =
          some (st, [(h, OutMsg.error "No targets connected")])) :=
  ⟨fun hne => ⟨handleSenderJoin_invalid h rc st hne,
      handleClientJoin_invalid h rc st hne⟩,
    fun hns => handlePrankMessage_not_sender h p failing st hns,
    fun info hs hrole hempty =>
      handlePrankMessage_no_targets h p failing st info hs hrole hempty⟩

theorem C5_rejections_send_error_only_witness :
    handleSenderJoin 0 "WRONG_CODE" initState
      = (initState, [(0, OutMsg.error "Invalid room code")])
    ∧ handlePrankMessage 1 (some "X") []
        { rooms := [], sessions := [(1, ⟨SessionType.client, PRANK_ROOM_CODE⟩)] }
      = some ({ rooms := [], sessions := [(1, ⟨SessionType.client, PRANK_ROOM_CODE⟩)] },
          [(1, OutMsg.error "Only senders can send prank messages")])
    ∧ handlePrankMessage 2 (some "X") []
        { rooms := [], sessions := [(2, ⟨SessionType.sender, PRANK_ROOM_CODE⟩)] }
      = some ({ rooms := [], sessions := [(2, ⟨SessionType.sender, PRANK_ROOM_CODE⟩)] },
          [(2, OutMsg.error "No targets connected")]) := by
  refine ⟨((C5_rejections_send_error_only initState 0 "WRONG_CODE" none []).1
      (by decide)).1, ?_, ?_⟩
  · refine (C5_rejections_send_error_only _ 1 "x" (some "X") []).2.1 ?_
    intro info hinfo
    simp [mapGet] at hinfo
    subst hinfo
    decide
  · refine (C5_rejections_send_error_only _ 2 "x" (some "X") []).2.2
      ⟨SessionType.sender, PRANK_ROOM_CODE⟩ ?_ rfl ?_
    · simp [mapGet]
    · intro room hroom
      simp [mapGet] at hroom

/-- C7: a sender join with the correct secret fetches-or-creates the room,
unconditionally overwrites its sender slot with this handle (last joiner
wins; the prior handle is merely dropped, never closed), records the
session as sender for that room, and synchronously sends the current
client count followed by `target_acquired` when clients exist, else
`waiting_for_target`. -/
theorem C7_sender_join_behaviour (st : ServerState) (h : Handle) :
    mapGet PRANK_ROOM_CODE (handleSenderJoin h PRANK_ROOM_CODE st).1.rooms
      = some ⟨some h, ((mapGet PRANK_ROOM_CODE st.rooms).getD emptyRoom).clients⟩
    ∧ mapGet h (handleSenderJoin h PRANK_ROOM_CODE st).1.sessions
      = some ⟨SessionType.sender, PRANK_ROOM_CODE⟩
    ∧ (handleSenderJoin h PRANK_ROOM_CODE st).2 =
        (h, OutMsg.clientCount
            ((mapGet PRANK_ROOM_CODE st.rooms).getD emptyRoom).clients.length)
          :: (if 0 < ((mapGet PRANK_ROOM_CODE st.rooms).getD emptyRoom).clients.length
              then [(h, OutMsg.targetAcquired
                  ((mapGet PRANK_ROOM_CODE st.rooms).getD emptyRoom).clients.length)]
              else [(h, OutMsg.waitingForTarget)]) := by
  refine ⟨?_, ?_, ?_⟩
  · rw [handleSenderJoin_valid]
    exact mapGet_mapSet_self _ _ _
  · rw [handleSenderJoin_valid]
    exact mapGet_mapSet_self _ _ _
  · rw [handleSenderJoin_valid]

/-- C9: in every reachable state the registry holds at most one room, and
every key present is exactly the configured secret. -/
theorem C9_registry_single_secret_key (es : List Event) :
    (execState es).rooms.length ≤ 1
    ∧ ((execState es).rooms.map Prod.fst).all
        (fun k => k == PRANK_ROOM_CODE) = true := by
  rcases execState_roomsInv es with hnil | ⟨r, hr, _⟩
  · rw [hnil]
    exact ⟨by simp, by simp⟩
  · rw [hr]
    exact ⟨by simp, by simp⟩

/-- C10: a prank_message from a joined sender whose room has clients, but
with no payload, is dropped silently: the handler throws before any send
(reading `message.payload.type`), the outer catch swallows it, and the
dispatcher produces no message at all and leaves the state unchanged. -/
theorem C10_missing_payload_silent_drop (st : ServerState) (h : Handle)
    (info : ClientInfo) (room : Room) (failing : List Handle)
    (hs : mapGet h st.sessions = some info)
    (hrole : info.role = SessionType.sender)
    (hroom : mapGet info.roomCode st.rooms = some room)
    (hne : room.clients ≠ []) :
    handlePrankMessage h none failing st = none
    ∧ step st (Event.msg h (InMsg.prankMessage none) failing) = (st, []) := by
  have hlen : room.clients.length ≠ 0 := fun h0 => hne (List.length_eq_zero.mp h0)
  have h1 := handlePrankMessage_missing_payload h failing st info room hs hrole hroom hlen
  refine ⟨h1, ?_⟩
  show (match handlePrankMessage h none failing st with
        | some r => r
        | none => (st, [])) = (st, [])
  rw [h1]

theorem C10_missing_payload_silent_drop_witness :
    handlePrankMessage 0 none []
      { rooms := [(PRANK_ROOM_CODE, ⟨some 0, [1]⟩)],
        sessions := [(0, ⟨SessionType.sender, PRANK_ROOM_CODE⟩)] } = none :=
  (C10_missing_payload_silent_drop _ 0 ⟨SessionType.sender, PRANK_ROOM_CODE⟩
    ⟨some 0, [1]⟩ [] (by decide) rfl (by decide) (by decide)).1

/-- C3: when exactly one of the room's targets fails during the fan-out
(the target list being `xs ++ t :: ys` with `t` the sole failing handle),
the failure is contained: every other target still receives the payload,
in order, and the receipt to the sender counts delivered = N-1 against
total = N, the list length at fan-out time. -/
theorem C3_single_send_failure_fanout (st : ServerState) (h t : Handle)
    (info : ClientInfo) (sender0 : Option Handle) (xs ys : List Handle)
    (p : Payload)
    (hs : mapGet h st.sessions = some info)
    (hrole : info.role = SessionType.sender)
    (hroom : mapGet info.roomCode st.rooms = some ⟨sender0, xs ++ t :: ys⟩)
    (hx : t ∉ xs) (hy : t ∉ ys) :
    handlePrankMessage h (some p) [t] st =
      some (st, (xs ++ ys).map (fun c => (c, OutMsg.prankMessage p))
        ++ [(h, OutMsg.prankDelivered (xs ++ ys).length (xs ++ t :: ys).length)])
    ∧ (xs ++ t :: ys).length = (xs ++ ys).length + 1 := by
  have hne : (⟨sender0, xs ++ t :: ys⟩ : Room).clients.length ≠ 0 := by
    simp
  have hd := handlePrankMessage_deliver h p [t] st info ⟨sender0, xs ++ t :: ys⟩
    hs hrole hroom hne
  have hf := filter_not_failing_single t xs ys hx hy
  constructor
  · rw [hd]
    dsimp only at hf ⊢
    rw [hf]
  · simp [List.length_append]
    omega

theorem C3_single_send_failure_fanout_witness :
    handlePrankMessage 0 (some "X") [2]
      { rooms := [(PRANK_ROOM_CODE, ⟨some 0, [1, 2, 3]⟩)],
        sessions := [(0, ⟨SessionType.sender, PRANK_ROOM_CODE⟩)] } =
      some ({ rooms := [(PRANK_ROOM_CODE, ⟨some 0, [1, 2, 3]⟩)],
              sessions := [(0, ⟨SessionType.sender, PRANK_ROOM_CODE⟩)] },
        [(1, OutMsg.prankMessage "X"), (3, OutMsg.prankMessage "X"),
         (0, OutMsg.prankDelivered 2 3)]) :=
  (C3_single_send_failure_fanout _ 0 2 ⟨SessionType.sender, PRANK_ROOM_CODE⟩
    (some 0) [1] [3] "X" (by decide) rfl (by decide) (by decide) (by decide)).1

/-- C8: when a client disconnects, exactly that handle is removed from the
target list by identity match, not by position: with the list
`xs ++ h :: ys` and `h` not occurring in `xs`, the survivors are
`xs ++ ys` in their original order; the sender then receives the
recomputed count followed by `target_update` when clients remain, else
`target_lost`. -/
theorem C8_target_disconnect_identity_removal (st : ServerState)
    (h s : Handle) (rc : String) (xs ys failing : List Handle)
    (hs : mapGet h st.sessions = some ⟨SessionType.client, rc⟩)
    (hroom : mapGet rc st.rooms = some ⟨some s, xs ++ h :: ys⟩)
    (hx : h ∉ xs) :
    mapGet rc (handleDisconnection h failing st).1.rooms
      = some ⟨some s, xs ++ ys⟩
    ∧ (handleDisconnection h failing st).2 =
        (s, OutMsg.clientCount (xs ++ ys).length)
          :: (if 0 < (xs ++ ys).length
              then [(s, OutMsg.targetUpdate (xs ++ ys).length)]
              else [(s, OutMsg.targetLost)]) := by
  have hrm : removeClient h (xs ++ h :: ys) = xs ++ ys :=
    removeClient_append h xs ys hx
  simp only [handleDisconnection, hs, hroom]
  rw [hrm]
  rw [if_neg (by simp)]
  constructor
  · rw [mapGet_mapSet_self]
  · simp [broadcastClientCount, mapGet_mapSet_self]

/-- C6: after a sender join and N ≥ 1 valid client joins (fresh handles
1..N) with no disconnects, the most recent client_count pushed to the
sender carries N, and a subsequent prank relay in which every send
succeeds delivers the payload to exactly those N targets and reports
delivered = N out of N. -/
theorem C6_count_and_full_delivery (N : Nat) (p : Payload) (hN : 1 ≤ N) :
    lastClientCountTo 0
        (run initState (Event.msg 0 (InMsg.senderJoin PRANK_ROOM_CODE) []
          :: clientJoinEvents ((List.range N).map (· + 1)))).2 = some N
    ∧ handlePrankMessage 0 (some p) []
        (run initState (Event.msg 0 (InMsg.senderJoin PRANK_ROOM_CODE) []
          :: clientJoinEvents ((List.range N).map (· + 1)))).1 =
      some ((run initState (Event.msg 0 (InMsg.senderJoin PRANK_ROOM_CODE) []
            :: clientJoinEvents ((List.range N).map (· + 1)))).1,
        ((List.range N).map (· + 1)).map (fun c => (c, OutMsg.prankMessage p))
          ++ [(0, OutMsg.prankDelivered N N)])
    ∧ ((List.range N).map (· + 1)).length = N := by
  have hst1 : (step initState (Event.msg 0 (InMsg.senderJoin PRANK_ROOM_CODE) [])).1
      = { rooms := [(PRANK_ROOM_CODE, ⟨some 0, []⟩)],
          sessions := [(0, ⟨SessionType.sender, PRANK_ROOM_CODE⟩)] } := by
    decide
  have hout0 : (step initState (Event.msg 0 (InMsg.senderJoin PRANK_ROOM_CODE) [])).2
      = [(0, OutMsg.clientCount 0), (0, OutMsg.waitingForTarget)] := by
    decide
  have hlen : ((List.range N).map (· + 1)).length = N := by simp
  have h0 : (0 : Handle) ∉ (List.range N).map (· + 1) := by simp
  have hsne : (List.range N).map (· + 1) ≠ [] := by
    intro hnil
    rw [hnil] at hlen
    simp at hlen
    omega
  have hjoin := run_clientJoins ((List.range N).map (· + 1))
    (step initState (Event.msg 0 (InMsg.senderJoin PRANK_ROOM_CODE) [])).1 0 []
    (by rw [hst1])
  refine ⟨?_, ?_, hlen⟩
  · show lastClientCountTo 0
        ((step initState (Event.msg 0 (InMsg.senderJoin PRANK_ROOM_CODE) [])).2
          ++ (run (step initState (Event.msg 0 (InMsg.senderJoin PRANK_ROOM_CODE) [])).1
              (clientJoinEvents ((List.range N).map (· + 1)))).2) = some N
    rw [hout0, hjoin.2.2]
    have hskip : lastClientCountTo 0
        ([(0, OutMsg.clientCount 0), (0, OutMsg.waitingForTarget)]
          ++ clientJoinBlocks 0 [] ((List.range N).map (· + 1)))
        = lastClientCountFrom 0 (some 0)
            (clientJoinBlocks 0 [] ((List.range N).map (· + 1))) := by
      simp [lastClientCountTo, lastClientCountFrom]
    rw [hskip, lastClientCountFrom_blocks 0 _ [] (some 0) hsne]
    rw [hlen]
    simp
  · have hsess : mapGet 0
        (run (step initState (Event.msg 0 (InMsg.senderJoin PRANK_ROOM_CODE) [])).1
          (clientJoinEvents ((List.range N).map (· + 1)))).1.sessions
        = some ⟨SessionType.sender, PRANK_ROOM_CODE⟩ := by
      rw [hjoin.2.1, mapGet_foldl_mapSet_ne 0 _ _ h0, hst1]
      simp [mapGet]
    have hroomN : mapGet PRANK_ROOM_CODE
        (run (step initState (Event.msg 0 (InMsg.senderJoin PRANK_ROOM_CODE) [])).1
          (clientJoinEvents ((List.range N).map (· + 1)))).1.rooms
        = some ⟨some 0, (List.range N).map (· + 1)⟩ := by
      rw [hjoin.1]
      simp [mapGet]
    have hnz : ((⟨some 0, (List.range N).map (· + 1)⟩ : Room)).clients.length ≠ 0 := by
      dsimp only
      rw [hlen]
      omega
    have hd := handlePrankMessage_deliver 0 p []
      (run (step initState (Event.msg 0 (InMsg.senderJoin PRANK_ROOM_CODE) [])).1
        (clientJoinEvents ((List.range N).map (· + 1)))).1
      ⟨SessionType.sender, PRANK_ROOM_CODE⟩ ⟨some 0, (List.range N).map (· + 1)⟩
      hsess rfl hroomN hnz
    have hfid : ((List.range N).map (· + 1)).filter
        (fun c => !(List.contains ([] : List Handle) c))
        = (List.range N).map (· + 1) :=
      List.filter_eq_self.mpr (fun a _ => rfl)
    show handlePrankMessage 0 (some p) []
        (run (step initState (Event.msg 0 (InMsg.senderJoin PRANK_ROOM_CODE) [])).1
          (clientJoinEvents ((List.range N).map (· + 1)))).1 = _
    rw [hd]
    dsimp only at hfid ⊢
    rw [hfid, hlen]
    rfl

theorem C6_count_and_full_delivery_witness :
    lastClientCountTo 0
        (run initState (Event.msg 0 (InMsg.senderJoin PRANK_ROOM_CODE) []
          :: clientJoinEvents ((List.range 2).map (· + 1)))).2 = some 2
    ∧ handlePrankMessage 0 (some "X") []
        (run initState (Event.msg 0 (InMsg.senderJoin PRANK_ROOM_CODE) []
          :: clientJoinEvents ((List.range 2).map (· + 1)))).1 =
      some ((run initState (Event.msg 0 (InMsg.senderJoin PRANK_ROOM_CODE) []
            :: clientJoinEvents ((List.range 2).map (· + 1)))).1,
        ((List.range 2).map (· + 1)).map (fun c => (c, OutMsg.prankMessage "X"))
          ++ [(0, OutMsg.prankDelivered 2 2)])
    ∧ ((List.range 2).map (· + 1)).length = 2 :=
  C6_count_and_full_delivery 2 "X" (by decide)

theorem C8_target_disconnect_identity_removal_witness :
    mapGet PRANK_ROOM_CODE (handleDisconnection 2 []
        { rooms := [(PRANK_ROOM_CODE, ⟨some 0, [1, 2, 3]⟩)],
          sessions := [(2, ⟨SessionType.client, PRANK_ROOM_CODE⟩)] }).1.rooms
      = some ⟨some 0, [1, 3]⟩
    ∧ (handleDisconnection 2 []
        { rooms := [(PRANK_ROOM_CODE, ⟨some 0, [1, 2, 3]⟩)],
          sessions := [(2, ⟨SessionType.client, PRANK_ROOM_CODE⟩)] }).2 =
        [(0, OutMsg.clientCount 2), (0, OutMsg.targetUpdate 2)] := by
  have h := C8_target_disconnect_identity_removal
    { rooms := [(PRANK_ROOM_CODE, ⟨some 0, [1, 2, 3]⟩)],
      sessions := [(2, ⟨SessionType.client, PRANK_ROOM_CODE⟩)] }
    2 0 PRANK_ROOM_CODE [1] [3] [] (by decide) (by decide) (by decide)
  exact ⟨h.1, by rw [h.2]; rfl⟩

end PrankRelay
